import Mathlib

/-!
# Verification of the container reconciliation engine

Shallow embedding of the reconciliation core of the
`tedge-container-monitor` repository.

Conventions of the embedding:

* MQTT topics are modelled as their slash-separated segment lists
  (`List String`); Go joins/splits them with `"/"`.  MQTT topic levels
  never contain `"/"`, so the two representations are in bijection.
* Go maps are modelled as association lists.  Iteration order over a Go
  map is unspecified; the model fixes the list order, which is sound for
  every per-element and set-level statement proved here.
* JSON message bodies are modelled by the inductive `Payload`: the
  reconciler only ever publishes a registration body, a health body, a
  twin body, or the empty (clearing) body, and no claim depends on the
  byte-level JSON encoding.
* Publish failures are modelled by an oracle `pub : Msg → Bool`
  (`true` = the publish succeeded).  The attempted messages are recorded
  in order; a message actually reaches the broker iff the oracle accepts
  it.
* External library calls that only format strings (go-units human sizes,
  RFC3339 time formatting) are abstracted by explicit functions below;
  no claim depends on their output.
-/

namespace ContainerMonitor

/-! ## Container inventory (package `container`, src/unnamed/part_000) -/

/-- `var ContainerType string = "container"` -/
def ContainerType : String := "container"

/-- `var ContainerGroupType string = "container-group"` -/
def ContainerGroupType : String := "container-group"

/-- One entry of `types.Port` (docker API): the fields read by
`FormatPorts`.  The Go field `Type` is named `PortType` here because
`Type` is reserved in Lean. -/
structure Port where
  IP : String := ""
  PrivatePort : Nat := 0
  PublicPort : Nat := 0
  PortType : String := ""
deriving DecidableEq, Repr

/-- `FormatPorts`: rendering of a single port entry (the body of the
loop in `FormatPorts`). -/
def formatPort (port : Port) : String :=
  if port.PublicPort == 0 then
    toString port.PrivatePort ++ ("/") ++ port.PortType
  else
    if port.IP == "" then
      toString port.PublicPort ++ (":") ++ toString port.PrivatePort ++ ("/") ++ port.PortType
    else
      port.IP ++ (":") ++ toString port.PublicPort ++ (":") ++ toString port.PrivatePort
        ++ ("/") ++ port.PortType

/-- `func FormatPorts(values []types.Port) string`: format every entry
and join with `", "`. -/
def FormatPorts (values : List Port) : String :=
  String.intercalate (", ") (values.foldl (fun acc port => acc ++ [formatPort port]) [])

/-- `strings.TrimPrefix(v, "/")` specialised to the single leading
slash used by `ConvertName` (written on the character list so that it
evaluates inside the kernel). -/
def stripLeadingSlash (s : String) : String :=
  match s.data with
  | [] => s
  | c :: rest => if c = ('/' : Char) then String.mk rest else s

/-- `func ConvertName(v []string) string`: first engine-reported name
with the leading `/` stripped.  (Go indexes `v[0]`, which requires a
non-empty slice; the model totalises with the empty string, and every
claim below uses non-empty name lists.) -/
def ConvertName (v : List String) : String :=
  stripLeadingSlash (v.headD (""))

/-- `func ConvertToTedgeStatus(v string) string` (switch on the engine
state). -/
def ConvertToTedgeStatus (v : String) : String :=
  if v == "up" || v == "running" then ("up") else ("down")

/-- The `Container` struct: normalized container attributes (the twin
payload). -/
structure Container where
  Name : String := ""
  Id : String := ""
  State : String := ""
  Status : String := ""
  CreatedAt : String := ""
  Image : String := ""
  Ports : String := ""
  NetworkIDs : List String := []
  Networks : String := ""
  RunningFor : String := ""
  Filesystem : String := ""
  Command : String := ""
  NetworkMode : String := ""
  ServiceName : String := ""
  ProjectName : String := ""
  Labels : List (String × String) := []
deriving DecidableEq, Repr

/-- `func (c *Container) GetName() string`. -/
def Container.GetName (c : Container) : String :=
  if c.ProjectName == "" then c.Name else c.ProjectName ++ ("@") ++ c.ServiceName

/-- The `TedgeContainer` struct: one observed inventory item.  `Time`
is the unix timestamp wrapped by `JSONTime` in the source. -/
structure TedgeContainer where
  Name : String := ""
  Status : String := ""
  ServiceType : String := ""
  Container : Container := {}
  Time : Int := 0
deriving DecidableEq, Repr

/-- The fields of docker's `types.Container` read by
`NewContainerFromDockerContainer`.  `NetworkIDs` lists the values of
`NetworkSettings.Networks` (each network's `NetworkID`). -/
structure DockerContainer where
  ID : String := ""
  Names : List String := []
  State : String := ""
  Status : String := ""
  Image : String := ""
  Command : String := ""
  Created : Int := 0
  Ports : List Port := []
  SizeRw : Int := 0
  SizeRootFs : Int := 0
  NetworkMode : String := ""
  NetworkIDs : List String := []
  Labels : List (String × String) := []
deriving DecidableEq, Repr

/-- Go map lookup on the association list of labels. -/
def labelLookup (labels : List (String × String)) (key : String) : Option String :=
  (labels.find? (fun kv => kv.fst == key)).map (fun kv => kv.snd)

/-- Abstraction of the external `go-units` call
`units.HumanSizeWithPrecision` (string formatting only; external
collaborator, not part of this repository). -/
def humanSizeWithPrecision (size : Int) (precision : Nat) : String :=
  toString size ++ ("B:") ++ toString precision

/-- Abstraction of the external Go standard-library call
`time.Unix(sec, 0).Format(time.RFC3339)` (string formatting only). -/
def formatRFC3339 (sec : Int) : String :=
  toString sec

/-- `func NewContainerFromDockerContainer(item *types.Container) TedgeContainer`.
`now` stands for the wall clock read by `time.Now()`. -/
def NewContainerFromDockerContainer (now : Int) (item : DockerContainer) : TedgeContainer :=
  let container0 : Container :=
    { Id := item.ID
      Name := ConvertName item.Names
      State := item.State
      Status := item.Status
      Image := item.Image
      Command := item.Command
      CreatedAt := formatRFC3339 item.Created
      Ports := FormatPorts item.Ports
      NetworkMode := item.NetworkMode
      Labels := item.Labels }
  let srw := humanSizeWithPrecision item.SizeRw 3
  let sv := humanSizeWithPrecision item.SizeRootFs 3
  let container1 :=
    { container0 with
        Filesystem :=
          if item.SizeRootFs > 0 then srw ++ (" (virtual ") ++ sv ++ (")") else srw }
  let container2 :=
    match labelLookup item.Labels ("com.docker.compose.project") with
    | some v => { container1 with ProjectName := v }
    | none => container1
  let container3 :=
    match labelLookup item.Labels ("com.docker.compose.service") with
    | some v => { container2 with ServiceName := v }
    | none => container2
  let container4 := { container3 with NetworkIDs := item.NetworkIDs }
  let containerType :=
    if (labelLookup item.Labels ("com.docker.compose.project")).isSome then
      ContainerGroupType
    else
      ContainerType
  { Name := container4.GetName
    Time := now
    Status := ConvertToTedgeStatus item.State
    ServiceType := containerType
    Container := container4 }

/-- `FilterOptions` (inventory filter criteria). -/
structure FilterOptions where
  Names : List String := []
  Labels : List String := []
  IDs : List String := []
  Types : List String := []
  ExcludeNames : List String := []
  ExcludeWithLabel : List String := []
deriving DecidableEq, Repr

/-- `func (fo FilterOptions) IsEmpty() bool`. -/
def FilterOptions.IsEmpty (fo : FilterOptions) : Bool :=
  fo.Names.length == 0 && fo.Labels.length == 0 && fo.IDs.length == 0

/-! ## Targets and topics (package `tedge`)

Modelled from the spec: the repository's `Target` type lives in a
`tedge` source file that is absent from `src/` (only its callers in
`app.go` and `tedge.go` are present).  Per the spec, an entity is
"identified by a hierarchical topic path
(`<root>/<device-path>/service/<name>`)"; topics are modelled as
segment lists, a device path has two segments (e.g. `device/main`), and
`NewTargetFromTopic` recovers a service target from such a path,
failing on any other shape (spec §7, `InvalidTopicStructure`). -/

/-- Modelled from the spec: `tedge.Target` — a (device or service)
topic target carrying the optional Cumulocity external identity. -/
structure Target where
  topicRoot : String := ""
  deviceSegs : List String := []
  service : Option String := none
  CloudIdentity : String := ""
deriving DecidableEq, Repr

/-- Modelled from the spec: `Target.Topic()` — the topic path
`<root>/<device-path>[/service/<name>]` as its segment list. -/
def Target.Topic (t : Target) : List String :=
  t.topicRoot :: t.deviceSegs ++
    (match t.service with
     | none => []
     | some n => [("service"), n])

/-- Modelled from the spec: `Device.Service(name)` — the service target
named `name` under the device. -/
def Target.Service (t : Target) (name : String) : Target :=
  { t with service := some name }

/-- Modelled from the spec: `tedge.GetTopic(target, segs...)` — the
target topic extended by the given suffix segments. -/
def GetTopic (target : Target) (segs : List String) : List String :=
  target.Topic ++ segs

/-- Modelled from the spec: `tedge.GetHealthTopic(target)` — the
health/status topic of a target (cleared via `status/health` in
`DeregisterEntity`). -/
def GetHealthTopic (target : Target) : List String :=
  GetTopic target [("status"), ("health")]

/-- Modelled from the spec: `tedge.NewTargetFromTopic` — parse a
retained-message topic back into a service target; any topic that is
not `<root>/<seg>/<seg>/service/<name>` is an invalid structure. -/
def NewTargetFromTopic (topic : List String) : Option Target :=
  match topic with
  | [r, d1, d2, s, n] =>
      if s == ("service") then
        some { topicRoot := r, deviceSegs := [d1, d2], service := some n }
      else
        none
  | _ => none

/-- Modelled from the spec: `Target.ExternalID()` — the cloud external
identity string of a target. -/
def Target.ExternalID (t : Target) : String :=
  t.CloudIdentity ++ (":") ++ String.intercalate ("/") t.Topic

/-! ## Messages and the entity store (package `tedge`, tedge.go) -/

/-- The JSON bodies the reconciler publishes: registration
(`{"@type":"service","name":…,"type":…}`), health (`{"status":…,
"time":…}`), twin (the full `Container` object), and the empty clearing
body. -/
inductive Payload where
  | reg (name : String) (serviceType : String)
  | health (status : String) (time : Int)
  | twin (c : Container)
  | empty
deriving DecidableEq, Repr

/-- An MQTT publish: topic (segment list), qos, retained flag and body. -/
structure Msg where
  topic : List String
  qos : Nat
  retained : Bool
  payload : Payload
deriving DecidableEq, Repr

/-- One entry of the entity store (`Client.Entities`): the retained
registration payload keyed by topic, reduced to its `"type"` attribute
(`none` when the payload carries no `"type"` key). -/
structure Entity where
  topic : List String
  etype : Option String
deriving DecidableEq, Repr

/-- The `"type"` attribute a stored payload would expose to
`doUpdate`'s `v.(map[string]any)["type"]` read. -/
def Payload.typeAttr : Payload → Option String
  | Payload.reg _ ty => some ty
  | _ => none

/-- The route registered in `tedge.NewClient`
(`GetTopic(*target.Service("+"))`): registration topics of this
device's services — `<root>/<device-path>/service/<single level>`. -/
def matchesRegistrationRoute (device : Target) (topic : List String) : Bool :=
  match topic with
  | [r, d1, d2, s, _] =>
      r == device.topicRoot && [d1, d2] == device.deviceSegs && s == ("service")
  | _ => false

/-- Go map insert (`c.Entities[m.Topic()] = payload`): replace in place
when the key exists, append otherwise. -/
def storeInsert (store : List Entity) (e : Entity) : List Entity :=
  if store.any (fun x => x.topic == e.topic) then
    store.map (fun x => if x.topic == e.topic then e else x)
  else
    store ++ [e]

/-- `Client.handleRegistrationMessage`: a routed retained message with a
non-empty body is stored; an empty body removes the entity. Messages
off the registration route never reach the handler. -/
def handleRegistrationMessage (device : Target) (store : List Entity) (m : Msg) :
    List Entity :=
  if matchesRegistrationRoute device m.topic then
    match m.payload with
    | Payload.empty => store.filter (fun e => !(e.topic == m.topic))
    | p => storeInsert store { topic := m.topic, etype := p.typeAttr }
  else
    store

/-- The entity store after the broker delivered the successfully
published messages of a pass back to the client. -/
def storeAfter (device : Target) (store : List Entity) (pub : Msg → Bool)
    (msgs : List Msg) : List Entity :=
  (msgs.filter pub).foldl (handleRegistrationMessage device) store

/-- `Client.DeregisterEntity`: clear the health/status retained message,
then the registration retained message; the first failure is returned
(so a failed health clear skips the registration clear).  Result: the
attempted publishes in order, and whether the call returned no error. -/
def DeregisterEntity (pub : Msg → Bool) (target : Target) : List Msg × Bool :=
  let hm : Msg :=
    { topic := GetTopic target [("status"), ("health")], qos := 1, retained := true,
      payload := Payload.empty }
  if !(pub hm) then
    ([hm], false)
  else
    let rm : Msg :=
      { topic := GetTopic target [], qos := 1, retained := true, payload := Payload.empty }
    ([hm, rm], pub rm)

/-- The Cumulocity-lookup outcome of `Identity.GetExternalID`. -/
inductive CloudLookup where
  | found (moID : String)
  | notFound
  | failure
deriving DecidableEq, Repr

/-- `Client.DeleteCumulocityManagedObject`: look the managed object up
by external ID; a not-found lookup is success with nothing deleted; a
found object is deleted (the deletion itself may fail).  Result:
`(deleted, no error)`. -/
def DeleteCumulocityManagedObject (lookup : String → CloudLookup)
    (del : String → Bool) (target : Target) : Bool × Bool :=
  match lookup target.ExternalID with
  | CloudLookup.notFound => (false, true)
  | CloudLookup.failure => (false, false)
  | CloudLookup.found moID => if del moID then (true, true) else (false, false)

/-! ## The reconciler (package `app`, app.go `doUpdate`) -/

/-- The registration message published for a newly observed item
(`{"@type":"service","name":item.Name,"type":item.ServiceType}`,
retained, qos 1). -/
def registrationMsg (target : Target) (item : TedgeContainer) : Msg :=
  { topic := target.Topic, qos := 1, retained := true,
    payload := Payload.reg item.Name item.ServiceType }

/-- The health/status message published for an observed item
(`{"status":item.Status,"time":item.Time}`, retained, qos 1). -/
def healthMsg (target : Target) (item : TedgeContainer) : Msg :=
  { topic := GetHealthTopic target, qos := 1, retained := true,
    payload := Payload.health item.Status item.Time }

/-- The twin message published for an observed item (the marshalled
`item.Container`, retained, qos 1, on `…/twin/container`). -/
def twinMsg (target : Target) (item : TedgeContainer) : Msg :=
  { topic := GetTopic target [("twin"), ("container")], qos := 1, retained := true,
    payload := Payload.twin item.Container }

/-- An empty retained clearing message (qos 1). -/
def emptyMsg (topic : List String) : Msg :=
  { topic := topic, qos := 1, retained := true, payload := Payload.empty }

/-- The twin-clear message for a stale target
(`Publish(GetTopic(*target, "twin", "container"), 1, true, "")`). -/
def twinClearMsg (target : Target) : Msg :=
  emptyMsg (GetTopic target [("twin"), ("container")])

/-- `existingServices`: the topics of stored entities whose `"type"`
attribute is `container` or `container-group`. -/
def isContainerKind (etype : Option String) : Bool :=
  etype == some ContainerType || etype == some ContainerGroupType

/-- The registered container/container-group service topics of the
entity store (in store order; Go iterates the map in unspecified
order). -/
def containerTopics (store : List Entity) : List (List String) :=
  (store.filter (fun e => isContainerKind e.etype)).map (fun e => e.topic)

/-- One iteration of `doUpdate`'s registration loop over
`(messages so far, existingServices)`: an already-registered topic is
removed from the set and re-registration is skipped; otherwise the
topic is removed (a no-op) and the registration message is published
(failures are logged and do not stop the loop). -/
def registrationStep (device : Target) (acc : List Msg × List (List String))
    (item : TedgeContainer) : List Msg × List (List String) :=
  let target := device.Service item.Name
  if acc.2.contains target.Topic then
    (acc.1, acc.2.filter (fun t => !(t == target.Topic)))
  else
    (acc.1 ++ [registrationMsg target item], acc.2.filter (fun t => !(t == target.Topic)))

/-- `doUpdate`'s registration loop. -/
def registrationPass (device : Target) (items : List TedgeContainer)
    (existing : List (List String)) : List Msg × List (List String) :=
  items.foldl (registrationStep device) ([], existing)

/-- The three non-stale publish loops of `doUpdate`, in source order:
all registration messages, then all health messages, then all twin
messages.  (The optional metrics loop reads engine stats and publishes
nothing.) -/
def mainAttempts (device : Target) (store : List Entity)
    (items : List TedgeContainer) : List Msg :=
  (registrationPass device items (containerTopics store)).1
    ++ items.map (fun it => healthMsg (device.Service it.Name) it)
    ++ items.map (fun it => twinMsg (device.Service it.Name) it)

/-- `doUpdate`'s stale-removal loop over the leftover
`existingServices` topics.  Per topic: parse it (an invalid structure
is logged and skipped); publish the twin-clear — a failure is returned
immediately, aborting the rest of the loop; call `DeregisterEntity` — a
failure is logged and the loop continues; mark the target for deferred
cloud deletion.  Result: attempted publishes, marked targets, and
whether the loop finished without returning an error. -/
def staleLoop (pub : Msg → Bool) : List (List String) → List Msg × List Target × Bool
  | [] => ([], [], true)
  | t :: rest =>
    match NewTargetFromTopic t with
    | none => staleLoop pub rest
    | some target =>
      let tm := twinClearMsg target
      if !(pub tm) then
        ([tm], [], false)
      else
        let dereg := DeregisterEntity pub target
        let r := staleLoop pub rest
        (tm :: dereg.1 ++ r.1, target :: r.2.1, r.2.2)

/-- The deferred cloud-deletion pass: after the grace delay, each
marked target gets the client's cloud identity and is deleted from the
cloud only when that identity is non-empty (deletion errors are logged
and do not stop the batch).  Result: the targets for which
`DeleteCumulocityManagedObject` is invoked. -/
def cloudDeletionPass (clientIdentity : String) (marked : List Target) : List Target :=
  (marked.map (fun t => { t with CloudIdentity := clientIdentity })).filter
    (fun t => !(t.CloudIdentity == ""))

/-- The observable outcome of one `doUpdate` pass: the attempted
publishes in order, the cloud deletions attempted, and whether the pass
returned no error. -/
structure UpdateResult where
  attempts : List Msg
  cloudDeletes : List Target
  ok : Bool
deriving DecidableEq, Repr

/-- `func (a *App) doUpdate(filterOptions container.FilterOptions) error`,
given the entity-store snapshot (`GetEntities`) and the observed
inventory (`ContainerClient.List`) as inputs (their read errors abort
the pass before any side effect and are not modelled).  Stale removal
runs only when the filter criteria are empty; an error while publishing
a twin-clear aborts the pass before the deferred cloud deletions. -/
def doUpdate (device : Target) (clientIdentity : String) (store : List Entity)
    (items : List TedgeContainer) (filterOptions : FilterOptions)
    (pub : Msg → Bool) : UpdateResult :=
  let removeStaleServices := filterOptions.IsEmpty
  let existingServices := containerTopics store
  let main := mainAttempts device store items
  if removeStaleServices then
    let sl := staleLoop pub (registrationPass device items existingServices).2
    { attempts := main ++ sl.1
      cloudDeletes := if sl.2.2 then cloudDeletionPass clientIdentity sl.2.1 else []
      ok := sl.2.2 }
  else
    { attempts := main, cloudDeletes := [], ok := true }

/-! ## The event monitor (app.go `Monitor`) -/

/-- The container-engine lifecycle actions dispatched by `Monitor`'s
switch (plus `die`, which appears in `ContainerEventText` only, and a
catch-all for unmapped actions). -/
inductive EngineAction where
  | create
  | start
  | stop
  | destroy
  | remove
  | die
  | pause
  | unpause
  | other
deriving DecidableEq, Repr

/-- The reconciliation trigger of `Monitor`'s `switch evt.Action` for a
container event: `some opts` means `a.Update(opts)` is called, `none`
means no reconciliation pass is triggered. -/
def monitorTriggerUpdate (action : EngineAction) (actorID : String) :
    Option FilterOptions :=
  match action with
  | EngineAction.create => none
  | EngineAction.start => some { IDs := [actorID] }
  | EngineAction.stop => some { IDs := [actorID] }
  | EngineAction.pause => some { IDs := [actorID] }
  | EngineAction.unpause => some { IDs := [actorID] }
  | EngineAction.destroy => some {}
  | EngineAction.remove => some {}
  | _ => none

/-! ## Derived notions used by the verification -/

/-- The health/status-clear message `DeregisterEntity` publishes first. -/
def healthClearMsg (target : Target) : Msg :=
  { topic := GetTopic target [("status"), ("health")], qos := 1, retained := true,
    payload := Payload.empty }

/-- The registration-clear message `DeregisterEntity` publishes second. -/
def registrationClearMsg (target : Target) : Msg :=
  { topic := GetTopic target [], qos := 1, retained := true, payload := Payload.empty }

/-- The topics an observed inventory targets. -/
def itemTopics (device : Target) (items : List TedgeContainer) : List (List String) :=
  items.map (fun it => (device.Service it.Name).Topic)

/-- The stale set of a full scan: registered container/container-group
topics matched by no observed item. -/
def staleTopics (device : Target) (store : List Entity)
    (items : List TedgeContainer) : List (List String) :=
  (containerTopics store).filter (fun t => !((itemTopics device items).contains t))

/-- The publishes attempted for one stale topic: the twin-clear, then
the `DeregisterEntity` clears (nothing for an unparseable topic). -/
def deregAttemptsOf (pub : Msg → Bool) (t : List String) : List Msg :=
  match NewTargetFromTopic t with
  | none => []
  | some target => twinClearMsg target :: (DeregisterEntity pub target).1

/-- The three clearing messages deregistering a stale topic, in order:
twin, health/status, registration. -/
def deregSequence (t : List String) : List Msg :=
  [emptyMsg (t ++ [("twin"), ("container")]),
   emptyMsg (t ++ [("status"), ("health")]),
   emptyMsg t]

/-- Folding Go-map inserts over a batch of entries. -/
def insertAll (st : List Entity) (ins : List Entity) : List Entity :=
  ins.foldl storeInsert st

/-- The entities a pass newly registers: the observed items whose topic
is not yet a registered container topic, keyed by their service topic
with their service type as the stored `"type"` attribute. -/
def regEntities (device : Target) (store : List Entity)
    (items : List TedgeContainer) : List Entity :=
  (items.filter (fun it =>
    !((containerTopics store).contains (device.Service it.Name).Topic))).map
      (fun it => { topic := (device.Service it.Name).Topic, etype := some it.ServiceType })

/-- A concrete main device used by the evaluation witnesses. -/
def devMain : Target :=
  { topicRoot := ("te"), deviceSegs := [("device"), ("main")] }

/-- A concrete entity store used by the idempotence witness: one stale
container and one still-observed container. -/
def storeFix : List Entity :=
  [{ topic := [("te"), ("device"), ("main"), ("service"), ("old")],
     etype := some ContainerType },
   { topic := [("te"), ("device"), ("main"), ("service"), ("web")],
     etype := some ContainerType }]

/-- A concrete observed inventory used by the idempotence witness. -/
def itemsFix : List TedgeContainer :=
  [{ Name := ("web"), Status := ("up"), ServiceType := ContainerType, Time := 3 }]

/-- The entity store after the first pass of the idempotence witness. -/
def store1Fix : List Entity :=
  storeAfter devMain storeFix (fun _ => true)
    (doUpdate devMain ("c8y1") storeFix itemsFix {} (fun _ => true)).attempts

/-! ## Basic lemmas about the embedding -/

/-- `DeregisterEntity` in terms of the two named clears. -/
theorem deregisterEntity_eq (pub : Msg → Bool) (target : Target) :
    DeregisterEntity pub target =
      if pub (healthClearMsg target) then
        ([healthClearMsg target, registrationClearMsg target],
         pub (registrationClearMsg target))
      else
        ([healthClearMsg target], false) := by
  by_cases h : pub (healthClearMsg target)
  · simp only [healthClearMsg, registrationClearMsg] at h ⊢
    simp [DeregisterEntity, h]
  · have h2 : pub (healthClearMsg target) = false := by simpa using h
    simp only [healthClearMsg, registrationClearMsg] at h2 ⊢
    simp [DeregisterEntity, h2]

/-- Accumulating a mapped singleton with `foldl` is `map`. -/
theorem foldl_append_singleton {α β : Type} (f : α → β) :
    ∀ (l : List α) (acc : List β),
      l.foldl (fun acc x => acc ++ [f x]) acc = acc ++ l.map f
  | [], acc => by simp
  | x :: l, acc => by
      simp only [List.foldl_cons, List.map_cons]
      rw [foldl_append_singleton f l (acc ++ [f x])]
      simp

/-- A parsed stale topic round-trips: the recovered target's topic is
the original topic. -/
theorem newTargetFromTopic_topic {t : List String} {target : Target}
    (h : NewTargetFromTopic t = some target) : target.Topic = t := by
  unfold NewTargetFromTopic at h
  split at h
  case h_1 r d1 d2 s n =>
    split at h
    case isTrue hs =>
      cases h
      have hs2 : s = ("service") := by simpa using hs
      simp [Target.Topic, hs2]
    case isFalse => cases h
  case h_2 => cases h

/-- The registration step appends at most the item's registration
message and removes the item's topic from the known set. -/
theorem regStep_eq (device : Target) (acc : List Msg × List (List String))
    (it : TedgeContainer) :
    registrationStep device acc it =
      (acc.1 ++
        (if (device.Service it.Name).Topic ∈ acc.2 then []
         else [registrationMsg (device.Service it.Name) it]),
       acc.2.filter (fun t => !(t == (device.Service it.Name).Topic))) := by
  unfold registrationStep
  by_cases h : (device.Service it.Name).Topic ∈ acc.2 <;> simp [h]

/-- The registration loop's accumulator splits off. -/
theorem foldl_regStep_acc (device : Target) :
    ∀ (items : List TedgeContainer) (ms : List Msg) (ex : List (List String)),
      items.foldl (registrationStep device) (ms, ex) =
        (ms ++ (items.foldl (registrationStep device) ([], ex)).1,
         (items.foldl (registrationStep device) ([], ex)).2)
  | [], ms, ex => by simp
  | it :: items, ms, ex => by
      simp only [List.foldl_cons]
      rw [regStep_eq, regStep_eq]
      rw [foldl_regStep_acc device items
            (ms ++ (if (device.Service it.Name).Topic ∈ ex then []
                    else [registrationMsg (device.Service it.Name) it])) _]
      rw [foldl_regStep_acc device items
            (([] : List Msg) ++ (if (device.Service it.Name).Topic ∈ ex then []
                    else [registrationMsg (device.Service it.Name) it])) _]
      simp

/-- Every message the registration loop publishes is a registration
message of one of the items. -/
theorem regPass_fst_mem (device : Target) :
    ∀ (items : List TedgeContainer) (ex : List (List String)) (m : Msg),
      m ∈ (registrationPass device items ex).1 →
      ∃ it ∈ items, m = registrationMsg (device.Service it.Name) it
  | [], ex, m => by simp [registrationPass]
  | it :: items, ex, m => by
      intro hm
      unfold registrationPass at hm
      simp only [List.foldl_cons] at hm
      rw [regStep_eq, foldl_regStep_acc] at hm
      simp only [List.nil_append] at hm
      rw [List.mem_append] at hm
      rcases hm with hm | hm
      · by_cases h : (device.Service it.Name).Topic ∈ ex
        · simp [h] at hm
        · rw [if_neg h] at hm
          exact ⟨it, List.mem_cons_self it items, by simpa using hm⟩
      · obtain ⟨it2, hit2, hm2⟩ := regPass_fst_mem device items _ m hm
        exact ⟨it2, List.mem_cons_of_mem it hit2, hm2⟩

/-- No message of the three main loops carries the empty (clearing)
body. -/
theorem mainAttempts_payload_not_empty (device : Target) (store : List Entity)
    (items : List TedgeContainer) :
    ∀ m ∈ mainAttempts device store items, ¬ m.payload = Payload.empty := by
  intro m hm
  unfold mainAttempts at hm
  rw [List.mem_append, List.mem_append] at hm
  rcases hm with (hm | hm) | hm
  · obtain ⟨it, _, rfl⟩ := regPass_fst_mem device items _ m hm
    simp [registrationMsg]
  · obtain ⟨it, _, rfl⟩ := List.mem_map.mp hm
    simp [healthMsg]
  · obtain ⟨it, _, rfl⟩ := List.mem_map.mp hm
    simp [twinMsg]

/-- After the registration loop, the leftover `existingServices` set is
exactly the stale set. -/
theorem regPass_snd (device : Target) :
    ∀ (items : List TedgeContainer) (ex : List (List String)),
      (registrationPass device items ex).2 =
        ex.filter (fun t => !((itemTopics device items).contains t))
  | [], ex => by simp [registrationPass, itemTopics]
  | it :: items, ex => by
      unfold registrationPass
      simp only [List.foldl_cons]
      rw [regStep_eq, foldl_regStep_acc]
      have ih := regPass_snd device items
        (ex.filter (fun t => !(t == (device.Service it.Name).Topic)))
      unfold registrationPass at ih
      simp only [ih, List.filter_filter]
      apply List.filter_congr
      intro t ht
      simp only [itemTopics, List.map_cons, List.contains_cons]
      cases h1 : t == (device.Service it.Name).Topic <;>
        cases h2 : (items.map (fun i => (device.Service i.Name).Topic)).contains t <;>
          simp [h1, h2, BEq.comm]

/-- When the stale loop never hits a twin-clear publish failure it
processes every stale topic and returns no error. -/
theorem staleLoop_ok (pub : Msg → Bool) :
    ∀ (l : List (List String)),
      (∀ t ∈ l, ∃ tgt, NewTargetFromTopic t = some tgt ∧ pub (twinClearMsg tgt) = true) →
      staleLoop pub l = (l.flatMap (deregAttemptsOf pub), l.filterMap NewTargetFromTopic, true)
  | [], _ => by simp [staleLoop]
  | t :: l, h => by
      obtain ⟨tgt, htgt, hpub⟩ := h t (List.mem_cons_self t l)
      have ih := staleLoop_ok pub l (fun u hu => h u (List.mem_cons_of_mem t hu))
      simp only [staleLoop, htgt, hpub, ih, List.flatMap_cons, List.filterMap_cons,
        Bool.not_true, Bool.false_eq_true, if_neg, deregAttemptsOf]
      simp [deregAttemptsOf, htgt]

/-- With every publish succeeding, the attempts for a parseable stale
topic are exactly its three-clear sequence. -/
theorem deregAttemptsOf_all_ok {pub : Msg → Bool} (hpub : ∀ m, pub m = true)
    {t : List String} {tgt : Target} (htgt : NewTargetFromTopic t = some tgt) :
    deregAttemptsOf pub t = deregSequence t := by
  have htop := newTargetFromTopic_topic htgt
  simp only [deregAttemptsOf, htgt, DeregisterEntity, hpub, Bool.not_true,
    Bool.false_eq_true, if_neg, deregSequence, twinClearMsg, emptyMsg,
    GetTopic, htop]
  simp [htop, hpub]

/-- Every message the stale loop attempts carries the empty body. -/
theorem staleLoop_payload_empty (pub : Msg → Bool) :
    ∀ (l : List (List String)), ∀ m ∈ (staleLoop pub l).1, m.payload = Payload.empty
  | [], m => by simp [staleLoop]
  | t :: l, m => by
      intro hm
      unfold staleLoop at hm
      rcases ht : NewTargetFromTopic t with _ | tgt
      · rw [ht] at hm
        exact staleLoop_payload_empty pub l m hm
      · rw [ht] at hm
        by_cases hp : pub (twinClearMsg tgt)
        · simp only [hp, Bool.not_true, Bool.false_eq_true, if_false, List.mem_cons,
            List.append_eq, List.mem_append] at hm
          rcases hm with (rfl | hm) | hm
          · rfl
          · rw [deregisterEntity_eq] at hm
            by_cases hh : pub (healthClearMsg tgt)
            · simp only [hh, if_pos] at hm
              simp only [List.mem_cons, List.mem_singleton, List.not_mem_nil] at hm
              rcases hm with rfl | rfl | h0
              · rfl
              · rfl
              · exact absurd h0 (by simp)
            · have hh2 : pub (healthClearMsg tgt) = false := by simpa using hh
              simp only [hh2, Bool.false_eq_true, if_false, List.mem_singleton] at hm
              rw [hm]
              rfl
          · exact staleLoop_payload_empty pub l m hm
        · have hp2 : pub (twinClearMsg tgt) = false := by simpa using hp
          simp only [hp2, Bool.not_false, if_pos, List.mem_singleton] at hm
          rw [hm]
          rfl

/-- A twin-clear publish failure aborts the stale loop: the topics
before the failing one are fully processed (even if their
`DeregisterEntity` clears failed), the failing twin-clear is the last
attempt, the loop returns the error, and nothing after the failing
topic is touched. -/
theorem staleLoop_abort (pub : Msg → Bool) {t : List String} {tgt : Target}
    (htgt : NewTargetFromTopic t = some tgt) (hfail : pub (twinClearMsg tgt) = false) :
    ∀ (l₁ : List (List String)) (l₂ : List (List String)),
      (∀ u ∈ l₁, ∃ g, NewTargetFromTopic u = some g ∧ pub (twinClearMsg g) = true) →
      staleLoop pub (l₁ ++ t :: l₂) =
        (l₁.flatMap (deregAttemptsOf pub) ++ [twinClearMsg tgt],
         l₁.filterMap NewTargetFromTopic, false)
  | [], l₂, _ => by
      simp only [List.nil_append, staleLoop, htgt, hfail, Bool.not_false, if_pos,
        List.flatMap_nil, List.filterMap_nil]
  | u :: l₁, l₂, h => by
      obtain ⟨g, hg, hgp⟩ := h u (List.mem_cons_self u l₁)
      have ih := staleLoop_abort pub htgt hfail l₁ l₂
        (fun v hv => h v (List.mem_cons_of_mem u hv))
      simp only [List.cons_append, staleLoop, hg, hgp, Bool.not_true,
        Bool.false_eq_true, if_neg, List.flatMap_cons, List.filterMap_cons]
      simp [deregAttemptsOf, hg, ih]

/-! ## Claim theorems -/

/-- C7: for every container engine event, the actions start, stop,
pause and unpause trigger a reconciliation pass filtered by the actor's
engine-assigned id (a non-empty filter); create triggers no pass; and
destroy and remove trigger a pass with empty filter criteria. -/
theorem C7_monitor_event_dispatch (actorID : String) :
    monitorTriggerUpdate EngineAction.start actorID = some { IDs := [actorID] } ∧
    monitorTriggerUpdate EngineAction.stop actorID = some { IDs := [actorID] } ∧
    monitorTriggerUpdate EngineAction.pause actorID = some { IDs := [actorID] } ∧
    monitorTriggerUpdate EngineAction.unpause actorID = some { IDs := [actorID] } ∧
    FilterOptions.IsEmpty { IDs := [actorID] } = false ∧
    monitorTriggerUpdate EngineAction.create actorID = none ∧
    monitorTriggerUpdate EngineAction.destroy actorID = some {} ∧
    monitorTriggerUpdate EngineAction.remove actorID = some {} ∧
    FilterOptions.IsEmpty ({} : FilterOptions) = true := by
  refine ⟨rfl, rfl, rfl, rfl, ?_, rfl, rfl, rfl, rfl⟩
  simp [FilterOptions.IsEmpty]

/-- C9: `FormatPorts` renders each entry as `<PrivatePort>/<Type>` when
`PublicPort` is 0, `<PublicPort>:<PrivatePort>/<Type>` when
`PublicPort` is non-zero with empty IP, and
`<IP>:<PublicPort>:<PrivatePort>/<Type>` otherwise, joining entries
with `", "`; in particular the two spec examples. -/
theorem C9_format_ports (values : List Port) (p : Port) :
    FormatPorts values = String.intercalate (", ") (values.map formatPort) ∧
    (p.PublicPort = 0 →
      formatPort p = toString p.PrivatePort ++ ("/") ++ p.PortType) ∧
    (¬ p.PublicPort = 0 → p.IP = "" →
      formatPort p =
        toString p.PublicPort ++ (":") ++ toString p.PrivatePort ++ ("/") ++ p.PortType) ∧
    (¬ p.PublicPort = 0 → ¬ p.IP = "" →
      formatPort p =
        p.IP ++ (":") ++ toString p.PublicPort ++ (":") ++ toString p.PrivatePort
          ++ ("/") ++ p.PortType) ∧
    FormatPorts [{ IP := "", PrivatePort := 80, PublicPort := 0, PortType := "tcp" }] =
      ("80/tcp") ∧
    FormatPorts [{ IP := "", PrivatePort := 80, PublicPort := 8080, PortType := "tcp" }] =
      ("8080:80/tcp") := by
  refine ⟨?_, ?_, ?_, ?_, by decide, by decide⟩
  · rw [FormatPorts, foldl_append_singleton]
    simp
  · intro h
    simp [formatPort, h]
  · intro h hip
    have hb : (p.PublicPort == 0) = false := by simpa using h
    simp [formatPort, hb, hip]
  · intro h hip
    have hb : (p.PublicPort == 0) = false := by simpa using h
    have hb2 : (p.IP == "") = false := by simpa using hip
    simp [formatPort, hb, hb2]

/-- C9 witness: the three rendering cases evaluated at concrete ports. -/
theorem C9_format_ports_witness :
    FormatPorts [⟨(""), 80, 0, ("tcp")⟩] = ("80/tcp") ∧
    formatPort ⟨(""), 80, 0, ("tcp")⟩ = ("80/tcp") ∧
    formatPort ⟨(""), 80, 8080, ("tcp")⟩ = ("8080:80/tcp") ∧
    formatPort ⟨("0.0.0.0"), 80, 8080, ("tcp")⟩ = ("0.0.0.0:8080:80/tcp") := by
  refine ⟨(C9_format_ports [⟨(""), 80, 0, ("tcp")⟩] ⟨(""), 80, 0, ("tcp")⟩).2.2.2.2.1, ?_, ?_, ?_⟩
  · exact ((C9_format_ports [] ⟨(""), 80, 0, ("tcp")⟩).2.1 rfl).trans (by decide)
  · exact (((C9_format_ports [] ⟨(""), 80, 8080, ("tcp")⟩).2.2.1 (by decide)) rfl).trans
      (by decide)
  · exact (((C9_format_ports [] ⟨("0.0.0.0"), 80, 8080, ("tcp")⟩).2.2.2.1 (by decide))
      (by decide)).trans (by decide)

/-- C8 counterexample: a container whose compose-project label is
present with an empty value gets `serviceType = "container-group"` but
keeps its bare container name `"web"` instead of the
`<project>@<service>` form (here `"@"`), refuting the claim that
carrying the label always yields `<project>@<service>`. -/
theorem C8_name_derivation_counterexample :
    (NewContainerFromDockerContainer 0
        { Names := ["/web"], State := "running",
          Labels := [(("com.docker.compose.project"), (""))] }).ServiceType =
      ContainerGroupType ∧
    (NewContainerFromDockerContainer 0
        { Names := ["/web"], State := "running",
          Labels := [(("com.docker.compose.project"), (""))] }).Name = ("web") ∧
    ¬ (NewContainerFromDockerContainer 0
        { Names := ["/web"], State := "running",
          Labels := [(("com.docker.compose.project"), (""))] }).Name = ("@") := by
  refine ⟨by decide, by decide, by decide⟩

/-- C8 (amended): an observed container carrying the compose-project
label has `serviceType = "container-group"`; its display name is
`<project>@<service>` when the label value is non-empty, and the bare
container name when the label value is empty.  A container with no
compose-project label keeps its bare name (first engine name, leading
`/` stripped) and `serviceType = "container"`. -/
theorem C8_name_derivation (now : Int) (item : DockerContainer) :
    (∀ p, labelLookup item.Labels ("com.docker.compose.project") = some p →
        (NewContainerFromDockerContainer now item).ServiceType = ContainerGroupType ∧
        (¬ p = "" → (NewContainerFromDockerContainer now item).Name =
          p ++ ("@") ++
            ((labelLookup item.Labels ("com.docker.compose.service")).getD (""))) ∧
        (p = "" → (NewContainerFromDockerContainer now item).Name =
          ConvertName item.Names)) ∧
    (labelLookup item.Labels ("com.docker.compose.project") = none →
        (NewContainerFromDockerContainer now item).ServiceType = ContainerType ∧
        (NewContainerFromDockerContainer now item).Name = ConvertName item.Names) := by
  constructor
  · intro p hp
    rcases hs : labelLookup item.Labels ("com.docker.compose.service") with _ | sv
    · refine ⟨?_, ?_, ?_⟩
      · simp [NewContainerFromDockerContainer, hp, hs]
      · intro hne
        have hb : (p == "") = false := by simpa using hne
        simp [NewContainerFromDockerContainer, hp, hs, Container.GetName, hb]
      · intro he
        subst he
        simp [NewContainerFromDockerContainer, hp, hs, Container.GetName]
    · refine ⟨?_, ?_, ?_⟩
      · simp [NewContainerFromDockerContainer, hp, hs]
      · intro hne
        have hb : (p == "") = false := by simpa using hne
        simp [NewContainerFromDockerContainer, hp, hs, Container.GetName, hb]
      · intro he
        subst he
        simp [NewContainerFromDockerContainer, hp, hs, Container.GetName]
  · intro hp
    rcases hs : labelLookup item.Labels ("com.docker.compose.service") with _ | sv <;>
      constructor <;>
        simp [NewContainerFromDockerContainer, hp, hs, Container.GetName]

/-- C8 witness: the amended name derivation evaluated on a compose
container (`nginx@web`, container-group) and a plain container (`db`,
container). -/
theorem C8_name_derivation_witness :
    (NewContainerFromDockerContainer 0
        { Names := ["/nginx-web-1"], State := "running",
          Labels := [(("com.docker.compose.project"), ("nginx")),
                     (("com.docker.compose.service"), ("web"))] }).ServiceType =
      ContainerGroupType ∧
    (NewContainerFromDockerContainer 0
        { Names := ["/nginx-web-1"], State := "running",
          Labels := [(("com.docker.compose.project"), ("nginx")),
                     (("com.docker.compose.service"), ("web"))] }).Name =
      ("nginx@web") ∧
    (NewContainerFromDockerContainer 0
        { Names := ["/db"], State := "running" }).ServiceType = ContainerType ∧
    (NewContainerFromDockerContainer 0
        { Names := ["/db"], State := "running" }).Name = ("db") := by
  have h1 := (C8_name_derivation 0
    { Names := ["/nginx-web-1"], State := "running",
      Labels := [(("com.docker.compose.project"), ("nginx")),
                 (("com.docker.compose.service"), ("web"))] }).1 ("nginx") (by decide)
  have h2 := (C8_name_derivation 0 { Names := ["/db"], State := "running" }).2 (by decide)
  refine ⟨h1.1, ?_, h2.1, by simpa using h2.2⟩
  have := h1.2.1 (by decide)
  simpa using this

/-- C1 counterexample: filter criteria whose only include filter is the
type allow-list (`Types = ["container"]`) count as *empty* for
`FilterOptions.IsEmpty` (which only inspects `Names`, `Labels`, `IDs`),
so a pass run with them does NOT suppress stale detection: a stale
registered container is deregistered (its twin-clear, health-clear and
registration-clear are all published). -/
theorem C1_type_filter_counterexample :
    ¬ ({ Types := [ContainerType] } : FilterOptions).Types = [] ∧
    ({ Types := [ContainerType] } : FilterOptions).IsEmpty = true ∧
    (doUpdate { topicRoot := ("te"), deviceSegs := [("device"), ("main")] } ("c8y1")
        [{ topic := [("te"), ("device"), ("main"), ("service"), ("old")],
           etype := some ContainerType }]
        [] { Types := [ContainerType] } (fun _ => true)).attempts =
      deregSequence [("te"), ("device"), ("main"), ("service"), ("old")] := by
  refine ⟨by decide, by decide, by decide⟩

/-- C1 (amended): for every reconciliation pass whose filter criteria
contain at least one *server-side* include filter (name patterns,
labels or explicit IDs — i.e. `IsEmpty` is false; the client-side type
allow-list and the exclude filters do not count), no entity is
deregistered: stale detection is suppressed, no empty (clearing)
message is published, and no cloud deletion occurs. -/
theorem C1_no_deregistration_on_filtered_pass
    (device : Target) (cid : String) (store : List Entity)
    (items : List TedgeContainer) (fo : FilterOptions) (pub : Msg → Bool)
    (h : fo.IsEmpty = false) :
    (doUpdate device cid store items fo pub).attempts = mainAttempts device store items ∧
    (∀ m ∈ (doUpdate device cid store items fo pub).attempts,
      ¬ m.payload = Payload.empty) ∧
    (doUpdate device cid store items fo pub).cloudDeletes = [] ∧
    (doUpdate device cid store items fo pub).ok = true := by
  have hd : doUpdate device cid store items fo pub =
      { attempts := mainAttempts device store items, cloudDeletes := [], ok := true } := by
    simp [doUpdate, h]
  rw [hd]
  exact ⟨rfl, fun m hm => mainAttempts_payload_not_empty device store items m hm, rfl, rfl⟩

/-- C1 witness: a pass filtered by an explicit ID over a store holding
a stale container entity publishes no clearing message and deletes
nothing from the cloud. -/
theorem C1_no_deregistration_witness :
    (doUpdate { topicRoot := ("te"), deviceSegs := [("device"), ("main")] } ("c8y1")
        [{ topic := [("te"), ("device"), ("main"), ("service"), ("old")],
           etype := some ContainerType }]
        [] { IDs := [("abc123")] } (fun _ => true)).attempts =
      mainAttempts { topicRoot := ("te"), deviceSegs := [("device"), ("main")] }
        [{ topic := [("te"), ("device"), ("main"), ("service"), ("old")],
           etype := some ContainerType }] [] ∧
    (∀ m ∈ (doUpdate { topicRoot := ("te"), deviceSegs := [("device"), ("main")] } ("c8y1")
        [{ topic := [("te"), ("device"), ("main"), ("service"), ("old")],
           etype := some ContainerType }]
        [] { IDs := [("abc123")] } (fun _ => true)).attempts,
      ¬ m.payload = Payload.empty) ∧
    (doUpdate { topicRoot := ("te"), deviceSegs := [("device"), ("main")] } ("c8y1")
        [{ topic := [("te"), ("device"), ("main"), ("service"), ("old")],
           etype := some ContainerType }]
        [] { IDs := [("abc123")] } (fun _ => true)).cloudDeletes = [] ∧
    (doUpdate { topicRoot := ("te"), deviceSegs := [("device"), ("main")] } ("c8y1")
        [{ topic := [("te"), ("device"), ("main"), ("service"), ("old")],
           etype := some ContainerType }]
        [] { IDs := [("abc123")] } (fun _ => true)).ok = true :=
  C1_no_deregistration_on_filtered_pass
    { topicRoot := ("te"), deviceSegs := [("device"), ("main")] } ("c8y1")
    [{ topic := [("te"), ("device"), ("main"), ("service"), ("old")],
       etype := some ContainerType }]
    [] { IDs := [("abc123")] } (fun _ => true) (by decide)

/-- Pointwise-equal functions give equal flat maps. -/
theorem flatMap_congr_mem {α β : Type} {l : List α} {f g : α → List β}
    (h : ∀ a ∈ l, f a = g a) : l.flatMap f = l.flatMap g := by
  induction l with
  | nil => rfl
  | cons x xs ih =>
      simp only [List.flatMap_cons]
      rw [h x (List.mem_cons_self x xs),
        ih (fun a ha => h a (List.mem_cons_of_mem x ha))]

/-- C2: on a full scan (empty filter criteria) with all publishes
succeeding, the empty (clearing) messages of the pass are exactly, for
each stored entity of declared type container/container-group whose
topic matches no observed item, the three-clear sequence twin-clear,
then health-clear, then registration-clear — and each such stale topic
occurs exactly once. -/
theorem C2_full_scan_deregistration
    (device : Target) (cid : String) (store : List Entity)
    (items : List TedgeContainer) (fo : FilterOptions) (pub : Msg → Bool)
    (hfo : fo.IsEmpty = true) (hpub : ∀ m, pub m = true)
    (hnodup : (store.map (fun e => e.topic)).Nodup)
    (hparse : ∀ t ∈ containerTopics store, (NewTargetFromTopic t).isSome) :
    (doUpdate device cid store items fo pub).attempts.filter
        (fun m => m.payload == Payload.empty) =
      (staleTopics device store items).flatMap deregSequence ∧
    (staleTopics device store items).Nodup ∧
    (doUpdate device cid store items fo pub).ok = true := by
  have hstale : ∀ t ∈ staleTopics device store items,
      ∃ tgt, NewTargetFromTopic t = some tgt ∧ pub (twinClearMsg tgt) = true := by
    intro t ht
    have ht2 : t ∈ containerTopics store := List.mem_of_mem_filter ht
    rcases Option.isSome_iff_exists.mp (hparse t ht2) with ⟨tgt, htgt⟩
    exact ⟨tgt, htgt, hpub _⟩
  have hsnd : (registrationPass device items (containerTopics store)).2 =
      staleTopics device store items := by
    rw [regPass_snd]
    rfl
  have hloop := staleLoop_ok pub (staleTopics device store items) hstale
  have hattempts : (doUpdate device cid store items fo pub).attempts =
      mainAttempts device store items ++
        (staleTopics device store items).flatMap (deregAttemptsOf pub) := by
    simp [doUpdate, hfo, hsnd, hloop]
  have hseq : (staleTopics device store items).flatMap (deregAttemptsOf pub) =
      (staleTopics device store items).flatMap deregSequence := by
    apply flatMap_congr_mem
    intro t ht
    rcases hstale t ht with ⟨tgt, htgt, _⟩
    exact deregAttemptsOf_all_ok hpub htgt
  refine ⟨?_, ?_, ?_⟩
  · rw [hattempts, List.filter_append]
    have h1 : (mainAttempts device store items).filter
        (fun m => m.payload == Payload.empty) = [] := by
      rw [List.filter_eq_nil_iff]
      intro m hm
      have := mainAttempts_payload_not_empty device store items m hm
      simpa using this
    have h2 : ((staleTopics device store items).flatMap (deregAttemptsOf pub)).filter
          (fun m => m.payload == Payload.empty) =
        (staleTopics device store items).flatMap (deregAttemptsOf pub) := by
      rw [List.filter_eq_self]
      intro m hm
      have hm2 : m ∈ (staleLoop pub (staleTopics device store items)).1 := by
        rw [hloop]
        exact hm
      have := staleLoop_payload_empty pub _ m hm2
      simpa using this
    rw [h1, h2, List.nil_append, hseq]
  · have h1 : List.Sublist (store.filter (fun e => isContainerKind e.etype)) store :=
      List.filter_sublist store
    have h2 : List.Sublist (containerTopics store) (store.map (fun e => e.topic)) := by
      unfold containerTopics
      exact h1.map _
    exact ((List.Sublist.nodup h2 hnodup).filter _)
  · simp [doUpdate, hfo, hsnd, hloop]

/-- C2 witness: a full scan over a store holding a stale container, a
still-observed container-group and a non-container service deregisters
exactly the stale one with its three-clear sequence. -/
theorem C2_full_scan_deregistration_witness :
    (doUpdate { topicRoot := ("te"), deviceSegs := [("device"), ("main")] } ("c8y1")
          [{ topic := [("te"), ("device"), ("main"), ("service"), ("old")],
             etype := some ContainerType },
           { topic := [("te"), ("device"), ("main"), ("service"), ("web")],
             etype := some ContainerGroupType },
           { topic := [("te"), ("device"), ("main"), ("service"), ("mon")],
             etype := some ("service") }]
          [{ Name := ("web"), Status := ("up"), ServiceType := ContainerGroupType,
             Time := 5 }]
          {} (fun _ => true)).attempts.filter (fun m => m.payload == Payload.empty) =
      (staleTopics { topicRoot := ("te"), deviceSegs := [("device"), ("main")] }
          [{ topic := [("te"), ("device"), ("main"), ("service"), ("old")],
             etype := some ContainerType },
           { topic := [("te"), ("device"), ("main"), ("service"), ("web")],
             etype := some ContainerGroupType },
           { topic := [("te"), ("device"), ("main"), ("service"), ("mon")],
             etype := some ("service") }]
          [{ Name := ("web"), Status := ("up"), ServiceType := ContainerGroupType,
             Time := 5 }]).flatMap deregSequence ∧
    (staleTopics { topicRoot := ("te"), deviceSegs := [("device"), ("main")] }
          [{ topic := [("te"), ("device"), ("main"), ("service"), ("old")],
             etype := some ContainerType },
           { topic := [("te"), ("device"), ("main"), ("service"), ("web")],
             etype := some ContainerGroupType },
           { topic := [("te"), ("device"), ("main"), ("service"), ("mon")],
             etype := some ("service") }]
          [{ Name := ("web"), Status := ("up"), ServiceType := ContainerGroupType,
             Time := 5 }]).Nodup ∧
    (doUpdate { topicRoot := ("te"), deviceSegs := [("device"), ("main")] } ("c8y1")
          [{ topic := [("te"), ("device"), ("main"), ("service"), ("old")],
             etype := some ContainerType },
           { topic := [("te"), ("device"), ("main"), ("service"), ("web")],
             etype := some ContainerGroupType },
           { topic := [("te"), ("device"), ("main"), ("service"), ("mon")],
             etype := some ("service") }]
          [{ Name := ("web"), Status := ("up"), ServiceType := ContainerGroupType,
             Time := 5 }]
          {} (fun _ => true)).ok = true :=
  C2_full_scan_deregistration
    { topicRoot := ("te"), deviceSegs := [("device"), ("main")] } ("c8y1")
    [{ topic := [("te"), ("device"), ("main"), ("service"), ("old")],
       etype := some ContainerType },
     { topic := [("te"), ("device"), ("main"), ("service"), ("web")],
       etype := some ContainerGroupType },
     { topic := [("te"), ("device"), ("main"), ("service"), ("mon")],
       etype := some ("service") }]
    [{ Name := ("web"), Status := ("up"), ServiceType := ContainerGroupType, Time := 5 }]
    {} (fun _ => true) (by decide) (fun _ => rfl) (by decide) (by decide)

/-- C4: in the stale-removal loop, a twin-clear publish failure makes
`doUpdate` return the error immediately: the stale topics before the
failing one are processed (a failed `DeregisterEntity` clear among them
is only logged — `deregAttemptsOf` keeps going), the failing twin-clear
is the last publish attempted, nothing after the failing topic is
touched, and the deferred cloud deletions are skipped. -/
theorem C4_stale_loop_error_semantics
    (device : Target) (cid : String) (store : List Entity)
    (items : List TedgeContainer) (fo : FilterOptions) (pub : Msg → Bool)
    (s₁ s₂ : List (List String)) (t : List String) (tgt : Target)
    (hfo : fo.IsEmpty = true)
    (hsplit : staleTopics device store items = s₁ ++ t :: s₂)
    (hgood : ∀ u ∈ s₁, ∃ g, NewTargetFromTopic u = some g ∧ pub (twinClearMsg g) = true)
    (htgt : NewTargetFromTopic t = some tgt)
    (hfail : pub (twinClearMsg tgt) = false) :
    (doUpdate device cid store items fo pub).attempts =
      mainAttempts device store items ++
        (s₁.flatMap (deregAttemptsOf pub) ++ [twinClearMsg tgt]) ∧
    (doUpdate device cid store items fo pub).ok = false ∧
    (doUpdate device cid store items fo pub).cloudDeletes = [] := by
  have hsnd : (registrationPass device items (containerTopics store)).2 =
      staleTopics device store items := by
    rw [regPass_snd]
    rfl
  have habort := staleLoop_abort pub htgt hfail s₁ s₂ hgood
  refine ⟨?_, ?_, ?_⟩ <;> simp [doUpdate, hfo, hsnd, hsplit, habort]

/-- C4 witness: two stale containers; the first one's health-clear
fails (logged, loop continues), the second one's twin-clear fails (the
pass aborts): the attempts stop at the failing twin-clear and no cloud
deletion happens. -/
theorem C4_stale_loop_error_semantics_witness :
    (doUpdate devMain ("c8y1")
          [{ topic := [("te"), ("device"), ("main"), ("service"), ("a1")],
             etype := some ContainerType },
           { topic := [("te"), ("device"), ("main"), ("service"), ("b2")],
             etype := some ContainerType }]
          [] {}
          (fun m =>
            !(m == twinClearMsg (devMain.Service ("b2"))) &&
            !(m == healthClearMsg (devMain.Service ("a1"))))).attempts =
      [twinClearMsg (devMain.Service ("a1")),
       healthClearMsg (devMain.Service ("a1")),
       twinClearMsg (devMain.Service ("b2"))] ∧
    (doUpdate devMain ("c8y1")
          [{ topic := [("te"), ("device"), ("main"), ("service"), ("a1")],
             etype := some ContainerType },
           { topic := [("te"), ("device"), ("main"), ("service"), ("b2")],
             etype := some ContainerType }]
          [] {}
          (fun m =>
            !(m == twinClearMsg (devMain.Service ("b2"))) &&
            !(m == healthClearMsg (devMain.Service ("a1"))))).ok = false ∧
    (doUpdate devMain ("c8y1")
          [{ topic := [("te"), ("device"), ("main"), ("service"), ("a1")],
             etype := some ContainerType },
           { topic := [("te"), ("device"), ("main"), ("service"), ("b2")],
             etype := some ContainerType }]
          [] {}
          (fun m =>
            !(m == twinClearMsg (devMain.Service ("b2"))) &&
            !(m == healthClearMsg (devMain.Service ("a1"))))).cloudDeletes = [] := by
  have h := C4_stale_loop_error_semantics devMain ("c8y1")
    [{ topic := [("te"), ("device"), ("main"), ("service"), ("a1")],
       etype := some ContainerType },
     { topic := [("te"), ("device"), ("main"), ("service"), ("b2")],
       etype := some ContainerType }]
    [] {}
    (fun m =>
      !(m == twinClearMsg (devMain.Service ("b2"))) &&
      !(m == healthClearMsg (devMain.Service ("a1"))))
    [[("te"), ("device"), ("main"), ("service"), ("a1")]]
    [] [("te"), ("device"), ("main"), ("service"), ("b2")]
    (devMain.Service ("b2"))
    (by decide) (by decide)
    (by
      intro u hu
      rw [List.mem_singleton] at hu
      subst hu
      exact ⟨devMain.Service ("a1"), by decide, by decide⟩)
    (by decide) (by decide)
  exact ⟨h.1.trans (by decide), h.2.1, h.2.2⟩

/-- Every target the cloud-deletion pass touches carries a non-empty
identity, and an empty client identity disables the pass. -/
theorem cloudDeletionPass_identity (cidv : String) (l : List Target) :
    (∀ x ∈ cloudDeletionPass cidv l, ¬ x.CloudIdentity = "") ∧
    (cidv = "" → cloudDeletionPass cidv l = []) := by
  constructor
  · intro x hx
    have := List.of_mem_filter hx
    simpa using this
  · intro h
    subst h
    rw [cloudDeletionPass, List.filter_eq_nil_iff]
    intro x hx
    rcases List.mem_map.mp hx with ⟨t, _, rfl⟩
    simp

/-- `doUpdate` either deletes nothing from the cloud or runs the
deletion pass with the client identity. -/
theorem doUpdate_cloudDeletes_cases (device : Target) (cid : String)
    (store : List Entity) (items : List TedgeContainer) (fo : FilterOptions)
    (pub : Msg → Bool) :
    (doUpdate device cid store items fo pub).cloudDeletes = [] ∨
    ∃ l, (doUpdate device cid store items fo pub).cloudDeletes =
      cloudDeletionPass cid l := by
  unfold doUpdate
  by_cases hfo : fo.IsEmpty
  · by_cases hok :
      (staleLoop pub (registrationPass device items (containerTopics store)).2).2.2
    · right
      refine ⟨(staleLoop pub (registrationPass device items (containerTopics store)).2).2.1,
        ?_⟩
      simp [hfo, hok]
    · left
      simp only [hfo, if_true]
      simp [hok]
  · left
    simp [hfo]

/-- C6: a deferred cloud deletion is attempted only for a target whose
(assigned) cloud identity is non-empty — in particular an empty client
identity yields no cloud deletion at all — and a not-found
external-identity lookup makes `DeleteCumulocityManagedObject` return
success (no error) with nothing deleted. -/
theorem C6_cloud_deletion_gate
    (device : Target) (cid : String) (store : List Entity)
    (items : List TedgeContainer) (fo : FilterOptions) (pub : Msg → Bool)
    (lookup : String → CloudLookup) (del : String → Bool) :
    (∀ x ∈ (doUpdate device cid store items fo pub).cloudDeletes,
        ¬ x.CloudIdentity = "") ∧
    (cid = "" → (doUpdate device cid store items fo pub).cloudDeletes = []) ∧
    (∀ g : Target, lookup g.ExternalID = CloudLookup.notFound →
        DeleteCumulocityManagedObject lookup del g = (false, true)) := by
  refine ⟨?_, ?_, ?_⟩
  · intro x hx
    rcases doUpdate_cloudDeletes_cases device cid store items fo pub with h | ⟨l, h⟩
    · rw [h] at hx
      simp at hx
    · rw [h] at hx
      exact (cloudDeletionPass_identity cid l).1 x hx
  · intro hcid
    rcases doUpdate_cloudDeletes_cases device cid store items fo pub with h | ⟨l, h⟩
    · exact h
    · rw [h]
      exact (cloudDeletionPass_identity cid l).2 hcid
  · intro g hg
    unfold DeleteCumulocityManagedObject
    rw [hg]

/-- C6 witness: with an empty client identity a full scan removing a
stale container performs no cloud deletion, and a not-found lookup for
a concrete target is success. -/
theorem C6_cloud_deletion_gate_witness :
    (doUpdate devMain ("")
        [{ topic := [("te"), ("device"), ("main"), ("service"), ("old")],
           etype := some ContainerType }]
        [] {} (fun _ => true)).cloudDeletes = [] ∧
    DeleteCumulocityManagedObject (fun _ => CloudLookup.notFound) (fun _ => true)
        { topicRoot := ("te"), deviceSegs := [("device"), ("main")],
          service := some ("old"), CloudIdentity := ("dev01") } = (false, true) := by
  have h := C6_cloud_deletion_gate devMain ("")
    [{ topic := [("te"), ("device"), ("main"), ("service"), ("old")],
       etype := some ContainerType }]
    [] {} (fun _ => true) (fun _ => CloudLookup.notFound) (fun _ => true)
  exact ⟨h.2.1 rfl, h.2.2 _ rfl⟩

/-- An item built from an engine snapshot carries
`Status = ConvertToTedgeStatus(engine state)` and records that state. -/
theorem newContainer_status_state (now : Int) (dc : DockerContainer) :
    (NewContainerFromDockerContainer now dc).Status = ConvertToTedgeStatus dc.State ∧
    (NewContainerFromDockerContainer now dc).Container.State = dc.State := by
  rcases h1 : labelLookup dc.Labels ("com.docker.compose.project") with _ | p <;>
    rcases h2 : labelLookup dc.Labels ("com.docker.compose.service") with _ | s <;>
      simp [NewContainerFromDockerContainer, h1, h2]

/-- `ConvertToTedgeStatus` maps every engine state to `"up"` or
`"down"`, is `"up"` exactly on `"up"`/`"running"`, and never yields
`"unknown"`. -/
theorem convertStatus_cases (v : String) :
    (ConvertToTedgeStatus v = ("up") ∨ ConvertToTedgeStatus v = ("down")) ∧
    (ConvertToTedgeStatus v = ("up") ↔ (v = ("up") ∨ v = ("running"))) ∧
    ¬ ConvertToTedgeStatus v = ("unknown") := by
  unfold ConvertToTedgeStatus
  by_cases h : v = ("up") ∨ v = ("running")
  · have hb : (v == ("up") || v == ("running")) = true := by
      rcases h with h | h <;> simp [h]
    rw [hb]
    simp [h]
  · have hb : (v == ("up") || v == ("running")) = false := by
      push_neg at h
      simp [h.1, h.2]
    rw [hb]
    simp [h]

/-- The attempts of a pass are the three main loops followed by
clearing messages only. -/
theorem doUpdate_attempts_split (device : Target) (cid : String) (store : List Entity)
    (items : List TedgeContainer) (fo : FilterOptions) (pub : Msg → Bool) :
    ∃ rest,
      (doUpdate device cid store items fo pub).attempts =
        mainAttempts device store items ++ rest ∧
      ∀ m ∈ rest, m.payload = Payload.empty := by
  unfold doUpdate
  by_cases hfo : fo.IsEmpty
  · refine ⟨(staleLoop pub (registrationPass device items (containerTopics store)).2).1,
      ?_, ?_⟩
    · simp [hfo]
    · intro m hm
      exact staleLoop_payload_empty pub _ m hm
  · exact ⟨[], by simp [hfo], by simp⟩

/-- C10: every health/status body a pass publishes carries status
exactly `"up"` or `"down"` — `"up"` iff the engine state is `"up"` or
`"running"` — so `"unknown"` is never published for an observed
container; and each observed item's health message is among the pass's
publishes. -/
theorem C10_health_status_up_down
    (device : Target) (cid : String) (store : List Entity)
    (items : List TedgeContainer) (fo : FilterOptions) (pub : Msg → Bool)
    (hitems : ∀ it ∈ items, ∃ now dc, it = NewContainerFromDockerContainer now dc) :
    (∀ m ∈ (doUpdate device cid store items fo pub).attempts, ∀ s tme,
        m.payload = Payload.health s tme → s = ("up") ∨ s = ("down")) ∧
    (∀ it ∈ items,
        healthMsg (device.Service it.Name) it ∈
          (doUpdate device cid store items fo pub).attempts ∧
        ¬ it.Status = ("unknown") ∧
        (it.Status = ("up") ↔
          (it.Container.State = ("up") ∨ it.Container.State = ("running")))) := by
  have hstat : ∀ it ∈ items, it.Status = ConvertToTedgeStatus it.Container.State := by
    intro it hit
    rcases hitems it hit with ⟨now, dc, rfl⟩
    have h := newContainer_status_state now dc
    rw [h.1, h.2]
  obtain ⟨rest, hsplit, hrest⟩ :=
    doUpdate_attempts_split device cid store items fo pub
  constructor
  · intro m hm s tme hpl
    rw [hsplit, List.mem_append] at hm
    rcases hm with hm | hm
    · unfold mainAttempts at hm
      rw [List.mem_append, List.mem_append] at hm
      rcases hm with (hm | hm) | hm
      · obtain ⟨it, _, rfl⟩ := regPass_fst_mem device items _ m hm
        simp [registrationMsg] at hpl
      · obtain ⟨it, hit, rfl⟩ := List.mem_map.mp hm
        simp only [healthMsg] at hpl
        cases hpl
        rw [hstat it hit]
        exact (convertStatus_cases it.Container.State).1
      · obtain ⟨it, _, rfl⟩ := List.mem_map.mp hm
        simp [twinMsg] at hpl
    · have := hrest m hm
      rw [this] at hpl
      cases hpl
  · intro it hit
    refine ⟨?_, ?_, ?_⟩
    · rw [hsplit]
      apply List.mem_append_left
      unfold mainAttempts
      apply List.mem_append_left
      apply List.mem_append_right
      exact List.mem_map_of_mem _ hit
    · rw [hstat it hit]
      exact (convertStatus_cases it.Container.State).2.2
    · rw [hstat it hit]
      exact (convertStatus_cases it.Container.State).2.1

/-- C10 witness: a pass over one running container and one exited
container publishes health statuses `"up"` and `"down"`. -/
theorem C10_health_status_up_down_witness :
    (∀ m ∈ (doUpdate devMain ("c8y1") []
        [NewContainerFromDockerContainer 5
            { ID := ("aa"), Names := ["/web"], State := ("running") },
         NewContainerFromDockerContainer 5
            { ID := ("bb"), Names := ["/db"], State := ("exited") }]
        {} (fun _ => true)).attempts, ∀ s tme,
        m.payload = Payload.health s tme → s = ("up") ∨ s = ("down")) ∧
    (NewContainerFromDockerContainer 5
        { ID := ("aa"), Names := ["/web"], State := ("running") }).Status = ("up") ∧
    (NewContainerFromDockerContainer 5
        { ID := ("bb"), Names := ["/db"], State := ("exited") }).Status = ("down") := by
  have h := C10_health_status_up_down devMain ("c8y1") []
    [NewContainerFromDockerContainer 5
       { ID := ("aa"), Names := ["/web"], State := ("running") },
     NewContainerFromDockerContainer 5
       { ID := ("bb"), Names := ["/db"], State := ("exited") }]
    {} (fun _ => true)
    (by
      intro it hit
      rw [List.mem_cons, List.mem_singleton] at hit
      rcases hit with rfl | rfl
      · exact ⟨5, _, rfl⟩
      · exact ⟨5, _, rfl⟩)
  exact ⟨h.1, by decide, by decide⟩

/-! ## Entity-store evolution lemmas (towards idempotence) -/

/-- A topic on the registration route parses as a target. -/
theorem route_parse {device : Target} {tp : List String}
    (h : matchesRegistrationRoute device tp = true) :
    (NewTargetFromTopic tp).isSome = true := by
  unfold matchesRegistrationRoute at h
  split at h
  case h_1 r d1 d2 s n =>
    simp only [Bool.and_eq_true, beq_iff_eq] at h
    simp [NewTargetFromTopic, h.2]
  case h_2 => cases h

/-- A topic on the registration route has five levels. -/
theorem route_length {device : Target} {tp : List String}
    (h : matchesRegistrationRoute device tp = true) : tp.length = 5 := by
  unfold matchesRegistrationRoute at h
  split at h
  case h_1 r d1 d2 s n => rfl
  case h_2 => cases h

/-- Extending a route topic by two levels leaves the route. -/
theorem route_append_false {device : Target} {tp : List String}
    (h : matchesRegistrationRoute device tp = true) (x y : String) :
    matchesRegistrationRoute device (tp ++ [x, y]) = false := by
  have hlen : (tp ++ [x, y]).length = 7 := by
    simp [route_length h]
  rcases hb : matchesRegistrationRoute device (tp ++ [x, y]) with _ | _
  · rfl
  · have := route_length hb
    rw [this] at hlen
    cases hlen

/-- Messages off the registration route do not change the store. -/
theorem handle_not_route {device : Target} {st : List Entity} {m : Msg}
    (h : matchesRegistrationRoute device m.topic = false) :
    handleRegistrationMessage device st m = st := by
  unfold handleRegistrationMessage
  rw [h]
  simp

/-- A run of off-route messages leaves the store unchanged. -/
theorem foldl_handle_no_route (device : Target) :
    ∀ (msgs : List Msg) (st : List Entity),
      (∀ m ∈ msgs, matchesRegistrationRoute device m.topic = false) →
      msgs.foldl (handleRegistrationMessage device) st = st
  | [], st, _ => rfl
  | m :: msgs, st, h => by
      simp only [List.foldl_cons]
      rw [handle_not_route (h m (List.mem_cons_self m msgs))]
      exact foldl_handle_no_route device msgs st
        (fun x hx => h x (List.mem_cons_of_mem m hx))

/-- A Go-map insert keeps the inserted entry visible. -/
theorem storeInsert_mem_self (st : List Entity) (e : Entity) :
    e ∈ storeInsert st e := by
  unfold storeInsert
  by_cases h : st.any (fun x => x.topic == e.topic)
  · rw [if_pos h]
    rcases List.any_eq_true.mp h with ⟨x, hx, hxe⟩
    refine List.mem_map.mpr ⟨x, hx, ?_⟩
    rw [if_pos hxe]
  · rw [if_neg h]
    exact List.mem_append_right st (List.mem_singleton_self e)

/-- Everything in a Go-map insert comes from the store or is the
inserted entry. -/
theorem storeInsert_mem {st : List Entity} {e x : Entity}
    (h : x ∈ storeInsert st e) : x ∈ st ∨ x = e := by
  unfold storeInsert at h
  by_cases hc : st.any (fun y => y.topic == e.topic)
  · rw [if_pos hc] at h
    rcases List.mem_map.mp h with ⟨y, hy, hyx⟩
    by_cases hye : y.topic == e.topic
    · rw [if_pos hye] at hyx
      right
      exact hyx.symm
    · rw [if_neg hye] at hyx
      left
      rw [← hyx]
      exact hy
  · rw [if_neg hc] at h
    rcases List.mem_append.mp h with h | h
    · left
      exact h
    · right
      exact List.mem_singleton.mp h

/-- An entry whose topic differs from the inserted key survives a
Go-map insert untouched. -/
theorem storeInsert_preserve {st : List Entity} {e x : Entity}
    (hx : x ∈ st) (hne : ¬ x.topic = e.topic) : x ∈ storeInsert st e := by
  unfold storeInsert
  by_cases hc : st.any (fun y => y.topic == e.topic)
  · rw [if_pos hc]
    refine List.mem_map.mpr ⟨x, hx, ?_⟩
    rw [if_neg (by simpa using hne)]
  · rw [if_neg hc]
    exact List.mem_append_left _ hx

/-- Everything after a batch insert comes from the store or the batch. -/
theorem insertAll_mem :
    ∀ {ins : List Entity} {st : List Entity} {x : Entity},
      x ∈ insertAll st ins → x ∈ st ∨ x ∈ ins := by
  intro ins
  induction ins with
  | nil => intro st x h; exact Or.inl h
  | cons e ins ih =>
      intro st x h
      rcases ih h with h2 | h2
      · rcases storeInsert_mem h2 with h3 | h3
        · exact Or.inl h3
        · exact Or.inr (h3 ▸ List.mem_cons_self e ins)
      · exact Or.inr (List.mem_cons_of_mem e h2)

/-- An entry whose topic the batch never touches survives the batch. -/
theorem insertAll_preserve :
    ∀ {ins : List Entity} {st : List Entity} {x : Entity},
      x ∈ st → (∀ e ∈ ins, ¬ x.topic = e.topic) → x ∈ insertAll st ins := by
  intro ins
  induction ins with
  | nil => intro st x h _; exact h
  | cons e ins ih =>
      intro st x h hne
      exact ih (storeInsert_preserve h (hne e (List.mem_cons_self e ins)))
        (fun u hu => hne u (List.mem_cons_of_mem e hu))

/-- A batch entry with a key unique in the batch is visible after the
batch insert. -/
theorem insertAll_self :
    ∀ {ins : List Entity} {st : List Entity} {e : Entity},
      e ∈ ins → (ins.map (fun x => x.topic)).Nodup → e ∈ insertAll st ins := by
  intro ins
  induction ins with
  | nil => intro st e h _; cases h
  | cons a ins ih =>
      intro st e h hnd
      have hms : insertAll st (a :: ins) = insertAll (storeInsert st a) ins := rfl
      rw [hms]
      rcases List.mem_cons.mp h with rfl | h2
      · refine insertAll_preserve (storeInsert_mem_self st e) ?_
        intro u hu he
        have : e.topic ∈ ins.map (fun x => x.topic) :=
          List.mem_map.mpr ⟨u, hu, he.symm⟩
        exact (List.nodup_cons.mp hnd).1 this
      · exact ih h2 (List.nodup_cons.mp hnd).2

/-- Topic membership in the registered container set. -/
theorem mem_containerTopics {st : List Entity} {tp : List String} :
    tp ∈ containerTopics st ↔
      ∃ e, e ∈ st ∧ e.topic = tp ∧ isContainerKind e.etype = true := by
  unfold containerTopics
  constructor
  · intro h
    rcases List.mem_map.mp h with ⟨e, he, rfl⟩
    exact ⟨e, List.mem_of_mem_filter he, rfl, by
      have := List.of_mem_filter he
      simpa using this⟩
  · rintro ⟨e, he, rfl, hk⟩
    exact List.mem_map.mpr ⟨e, List.mem_filter.mpr ⟨he, hk⟩, rfl⟩

/-- With an always-succeeding publish oracle the broker receives every
attempted message. -/
theorem storeAfter_true (device : Target) (st : List Entity) (msgs : List Msg) :
    storeAfter device st (fun _ => true) msgs =
      msgs.foldl (handleRegistrationMessage device) st := by
  unfold storeAfter
  congr 1
  exact List.filter_eq_self.mpr (fun m _ => rfl)

/-- A registration message on the route is a Go-map insert. -/
theorem handle_reg_msg {device : Target} (st : List Entity) (it : TedgeContainer)
    (h : matchesRegistrationRoute device (device.Service it.Name).Topic = true) :
    handleRegistrationMessage device st (registrationMsg (device.Service it.Name) it) =
      storeInsert st ⟨(device.Service it.Name).Topic, some it.ServiceType⟩ := by
  unfold handleRegistrationMessage registrationMsg
  simp only [h, if_true]
  rfl

/-- A batch of registration messages on the route is a batch insert. -/
theorem foldl_handle_reg (device : Target) :
    ∀ (regged : List TedgeContainer) (st : List Entity),
      (∀ it ∈ regged,
        matchesRegistrationRoute device (device.Service it.Name).Topic = true) →
      (regged.map (fun it => registrationMsg (device.Service it.Name) it)).foldl
          (handleRegistrationMessage device) st =
        insertAll st (regged.map (fun it =>
          (⟨(device.Service it.Name).Topic, some it.ServiceType⟩ : Entity)))
  | [], _, _ => rfl
  | it :: regged, st, h => by
      simp only [List.map_cons, List.foldl_cons]
      rw [handle_reg_msg st it (h it (List.mem_cons_self it regged))]
      exact foldl_handle_reg device regged _
        (fun u hu => h u (List.mem_cons_of_mem it hu))

/-- The three-clear sequences of route topics fold into Go-map
deletions of exactly those topics. -/
theorem foldl_handle_dereg (device : Target) :
    ∀ (ts : List (List String)) (st : List Entity),
      (∀ t ∈ ts, matchesRegistrationRoute device t = true) →
      (ts.flatMap deregSequence).foldl (handleRegistrationMessage device) st =
        st.filter (fun e => !(ts.contains e.topic))
  | [], st, _ => by simp
  | t :: ts, st, h => by
      have hroute := h t (List.mem_cons_self t ts)
      simp only [List.flatMap_cons, List.foldl_append]
      have h1 : (deregSequence t).foldl (handleRegistrationMessage device) st =
          st.filter (fun e => !(e.topic == t)) := by
        unfold deregSequence
        simp only [List.foldl_cons, List.foldl_nil]
        rw [handle_not_route (m := emptyMsg (t ++ [("twin"), ("container")]))
          (by simpa using route_append_false hroute ("twin") ("container"))]
        rw [handle_not_route (m := emptyMsg (t ++ [("status"), ("health")]))
          (by simpa using route_append_false hroute ("status") ("health"))]
        unfold handleRegistrationMessage emptyMsg
        simp only [hroute, if_true]
      rw [h1, foldl_handle_dereg device ts _ (fun u hu => h u (List.mem_cons_of_mem t hu))]
      rw [List.filter_filter]
      apply List.filter_congr
      intro e he
      rw [List.contains_cons, Bool.not_or, Bool.and_comm]

/-- With distinct item topics the registration loop publishes exactly
the registrations of the not-yet-registered items. -/
theorem regPass_fst_eq (device : Target) :
    ∀ (items : List TedgeContainer) (ex : List (List String)),
      (itemTopics device items).Nodup →
      (registrationPass device items ex).1 =
        (items.filter (fun it => !(ex.contains (device.Service it.Name).Topic))).map
          (fun it => registrationMsg (device.Service it.Name) it)
  | [], _, _ => rfl
  | it :: items, ex, hnd => by
      obtain ⟨hhd, htl⟩ : (device.Service it.Name).Topic ∉
          (itemTopics device items) ∧ (itemTopics device items).Nodup := by
        simpa [itemTopics] using hnd
      unfold registrationPass
      simp only [List.foldl_cons]
      rw [regStep_eq, foldl_regStep_acc]
      simp only [List.nil_append]
      have ih := regPass_fst_eq device items
        (ex.filter (fun t => !(t == (device.Service it.Name).Topic))) htl
      unfold registrationPass at ih
      rw [ih]
      have hfilter : items.filter (fun u =>
            !((ex.filter (fun t => !(t == (device.Service it.Name).Topic))).contains
              (device.Service u.Name).Topic)) =
          items.filter (fun u => !(ex.contains (device.Service u.Name).Topic)) := by
        apply List.filter_congr
        intro u hu
        have hne : ¬ (device.Service u.Name).Topic = (device.Service it.Name).Topic := by
          intro hEq
          exact hhd (hEq ▸ List.mem_map.mpr ⟨u, hu, rfl⟩)
        have hmem : ((ex.filter (fun t => !(t == (device.Service it.Name).Topic))).contains
              (device.Service u.Name).Topic) =
            (ex.contains (device.Service u.Name).Topic) := by
          by_cases hc : (device.Service u.Name).Topic ∈ ex
          · simp [List.mem_filter, hc, hne]
          · simp [List.mem_filter, hc]
        rw [hmem]
      rw [hfilter]
      by_cases hin : (device.Service it.Name).Topic ∈ ex
      · have hc : ex.contains (device.Service it.Name).Topic = true := by simpa using hin
        simp [List.filter_cons, hc, hin]
      · have hc : ex.contains (device.Service it.Name).Topic = false := by simpa using hin
        simp [List.filter_cons, hc, hin]

/-- Health and twin messages live two levels below the service topic
and therefore never match the registration route. -/
theorem health_twin_no_route (device : Target) (items : List TedgeContainer)
    (hitroute : ∀ it ∈ items,
      matchesRegistrationRoute device (device.Service it.Name).Topic = true) :
    (∀ m ∈ items.map (fun it => healthMsg (device.Service it.Name) it),
      matchesRegistrationRoute device m.topic = false) ∧
    (∀ m ∈ items.map (fun it => twinMsg (device.Service it.Name) it),
      matchesRegistrationRoute device m.topic = false) := by
  constructor
  · intro m hm
    rcases List.mem_map.mp hm with ⟨it, hit, rfl⟩
    have h := route_append_false (hitroute it hit) ("status") ("health")
    simpa [healthMsg, GetHealthTopic, GetTopic] using h
  · intro m hm
    rcases List.mem_map.mp hm with ⟨it, hit, rfl⟩
    have h := route_append_false (hitroute it hit) ("twin") ("container")
    simpa [twinMsg, GetTopic] using h

/-- The main loops' messages update the store by exactly the batch of
new registrations (health and twin messages are off the route). -/
theorem foldl_handle_main (device : Target) (store st : List Entity)
    (items : List TedgeContainer)
    (hitroute : ∀ it ∈ items,
      matchesRegistrationRoute device (device.Service it.Name).Topic = true)
    (hinodup : (itemTopics device items).Nodup) :
    (mainAttempts device store items).foldl (handleRegistrationMessage device) st =
      insertAll st (regEntities device store items) := by
  obtain ⟨hh, ht⟩ := health_twin_no_route device items hitroute
  unfold mainAttempts
  rw [List.foldl_append, List.foldl_append]
  rw [regPass_fst_eq device items (containerTopics store) hinodup]
  rw [foldl_handle_reg device _ st (fun u hu => hitroute u (List.mem_of_mem_filter hu))]
  rw [foldl_handle_no_route device _ _ hh, foldl_handle_no_route device _ _ ht]
  rfl

/-- After the batch insert, every observed item's topic is backed by a
registered container entity. -/
theorem itemTopic_after_insertAll (device : Target) (store : List Entity)
    (items : List TedgeContainer)
    (hinodup : (itemTopics device items).Nodup)
    (htypes : ∀ it ∈ items,
      it.ServiceType = ContainerType ∨ it.ServiceType = ContainerGroupType) :
    ∀ it ∈ items, ∃ e, e ∈ insertAll store (regEntities device store items) ∧
      e.topic = (device.Service it.Name).Topic ∧ isContainerKind e.etype = true := by
  intro it hit
  by_cases hreg : (device.Service it.Name).Topic ∈ containerTopics store
  · rcases mem_containerTopics.mp hreg with ⟨e, he, htop, hkind⟩
    refine ⟨e, ?_, htop, hkind⟩
    apply insertAll_preserve he
    intro u hu hEq
    rcases List.mem_map.mp hu with ⟨w, hw, rfl⟩
    have hw2 := List.of_mem_filter hw
    have hwc : (device.Service w.Name).Topic ∈ containerTopics store := by
      have : e.topic = (device.Service w.Name).Topic := hEq
      rw [htop] at this
      rw [← this]
      exact hreg
    simp [hwc] at hw2
  · have hpred :
        (!((containerTopics store).contains (device.Service it.Name).Topic)) = true := by
      simpa using hreg
    have hmem : (⟨(device.Service it.Name).Topic, some it.ServiceType⟩ : Entity) ∈
        regEntities device store items := by
      unfold regEntities
      exact List.mem_map.mpr ⟨it, List.mem_filter.mpr ⟨hit, hpred⟩, rfl⟩
    have hnd : ((regEntities device store items).map (fun x => x.topic)).Nodup := by
      unfold regEntities
      rw [List.map_map]
      have hsub : List.Sublist ((items.filter (fun u =>
          !((containerTopics store).contains (device.Service u.Name).Topic))).map
            (fun u => (device.Service u.Name).Topic)) (itemTopics device items) :=
        (List.filter_sublist items).map _
      exact hsub.nodup hinodup
    refine ⟨⟨(device.Service it.Name).Topic, some it.ServiceType⟩,
      insertAll_self hmem hnd, rfl, ?_⟩
    rcases htypes it hit with h | h <;> simp [isContainerKind, h]

/-- Every registered container entity after the batch insert has a
previously registered container topic or an observed topic. -/
theorem containerTopics_after_insertAll (device : Target) (store : List Entity)
    (items : List TedgeContainer) :
    ∀ e ∈ insertAll store (regEntities device store items),
      isContainerKind e.etype = true →
      e.topic ∈ containerTopics store ∨ e.topic ∈ itemTopics device items := by
  intro e he hkind
  rcases insertAll_mem he with h | h
  · left
    exact mem_containerTopics.mpr ⟨e, h, rfl, hkind⟩
  · right
    unfold regEntities at h
    rcases List.mem_map.mp h with ⟨w, hw, rfl⟩
    exact List.mem_map.mpr ⟨w, List.mem_of_mem_filter hw, rfl⟩

/-- C3: running `doUpdate` twice in succession with unchanged observed
inventory, all publishes succeeding and the broker echoing the first
pass's retained messages into the entity store, yields the same entity
store after the second pass; the second pass publishes no registration
message at all (every observed topic is already in the known set, so
the registration publish is skipped), while each item's health and twin
messages are still re-published. -/
theorem C3_idempotence
    (device : Target) (cid : String) (store : List Entity)
    (items : List TedgeContainer) (fo : FilterOptions) (store₁ : List Entity)
    (hsroute : ∀ e ∈ store, matchesRegistrationRoute device e.topic = true)
    (hinodup : (itemTopics device items).Nodup)
    (hitroute : ∀ it ∈ items,
      matchesRegistrationRoute device (device.Service it.Name).Topic = true)
    (htypes : ∀ it ∈ items,
      it.ServiceType = ContainerType ∨ it.ServiceType = ContainerGroupType)
    (hstore₁ : store₁ = storeAfter device store (fun _ => true)
      (doUpdate device cid store items fo (fun _ => true)).attempts) :
    (∀ m ∈ (doUpdate device cid store₁ items fo (fun _ => true)).attempts,
        ∀ n ty, ¬ m.payload = Payload.reg n ty) ∧
    storeAfter device store₁ (fun _ => true)
        (doUpdate device cid store₁ items fo (fun _ => true)).attempts = store₁ ∧
    (∀ it ∈ items,
        healthMsg (device.Service it.Name) it ∈
          (doUpdate device cid store₁ items fo (fun _ => true)).attempts ∧
        twinMsg (device.Service it.Name) it ∈
          (doUpdate device cid store₁ items fo (fun _ => true)).attempts) := by
  obtain ⟨hh2, ht2⟩ := health_twin_no_route device items hitroute
  have hstales : ∃ stales : List (List String),
      (∀ t ∈ stales, t ∉ itemTopics device items) ∧
      (fo.IsEmpty = true → stales = staleTopics device store items) ∧
      store₁ = (insertAll store (regEntities device store items)).filter
        (fun e => !(stales.contains e.topic)) := by
    by_cases hfo : fo.IsEmpty
    · refine ⟨staleTopics device store items, ?_, fun _ => rfl, ?_⟩
      · intro t ht
        have := List.of_mem_filter ht
        simpa using this
      · have hstroute : ∀ t ∈ staleTopics device store items,
            matchesRegistrationRoute device t = true := by
          intro t ht
          rcases mem_containerTopics.mp (List.mem_of_mem_filter ht) with ⟨e, he, rfl, _⟩
          exact hsroute e he
        have hparse : ∀ t ∈ staleTopics device store items,
            ∃ tgt, NewTargetFromTopic t = some tgt ∧
              (fun (_ : Msg) => true) (twinClearMsg tgt) = true := by
          intro t ht
          rcases Option.isSome_iff_exists.mp (route_parse (hstroute t ht)) with ⟨tgt, htgt⟩
          exact ⟨tgt, htgt, rfl⟩
        have hsnd : (registrationPass device items (containerTopics store)).2 =
            staleTopics device store items := by
          rw [regPass_snd]
          rfl
        have hloop := staleLoop_ok (fun _ => true) _ hparse
        have hseq := flatMap_congr_mem (l := staleTopics device store items)
          (f := deregAttemptsOf (fun _ => true)) (g := deregSequence)
          (fun t ht => by
            rcases hparse t ht with ⟨tgt, htgt, _⟩
            exact deregAttemptsOf_all_ok (fun _ => rfl) htgt)
        have hatt : (doUpdate device cid store items fo (fun _ => true)).attempts =
            mainAttempts device store items ++
              (staleTopics device store items).flatMap deregSequence := by
          simp [doUpdate, hfo, hsnd, hloop, hseq]
        rw [hstore₁, hatt, storeAfter_true, List.foldl_append]
        rw [foldl_handle_main device store store items hitroute hinodup]
        rw [foldl_handle_dereg device _ _ hstroute]
    · refine ⟨[], by simp, by simp [hfo], ?_⟩
      have hatt : (doUpdate device cid store items fo (fun _ => true)).attempts =
          mainAttempts device store items := by
        simp [doUpdate, hfo]
      rw [hstore₁, hatt, storeAfter_true]
      rw [foldl_handle_main device store store items hitroute hinodup]
      exact (List.filter_eq_self.mpr (fun e _ => rfl)).symm
  obtain ⟨stales, hstale_nin, hstaleA, hstore₁eq⟩ := hstales
  have hF1 : ∀ it ∈ items, (device.Service it.Name).Topic ∈ containerTopics store₁ := by
    intro it hit
    obtain ⟨e, he, htop, hkind⟩ :=
      itemTopic_after_insertAll device store items hinodup htypes it hit
    refine mem_containerTopics.mpr ⟨e, ?_, htop, hkind⟩
    rw [hstore₁eq]
    refine List.mem_filter.mpr ⟨he, ?_⟩
    have hnst : e.topic ∉ stales := by
      intro hmem
      apply hstale_nin e.topic hmem
      rw [htop]
      exact List.mem_map.mpr ⟨it, hit, rfl⟩
    simpa using hnst
  have hreg2 : (registrationPass device items (containerTopics store₁)).1 = [] := by
    rw [regPass_fst_eq device items _ hinodup]
    have hfil : items.filter (fun it =>
        !((containerTopics store₁).contains (device.Service it.Name).Topic)) = [] := by
      rw [List.filter_eq_nil_iff]
      intro it hit
      simp [hF1 it hit]
    rw [hfil]
    rfl
  have hmain2 : mainAttempts device store₁ items =
      items.map (fun it => healthMsg (device.Service it.Name) it) ++
        items.map (fun it => twinMsg (device.Service it.Name) it) := by
    unfold mainAttempts
    rw [hreg2, List.nil_append]
  have hatt2 : (doUpdate device cid store₁ items fo (fun _ => true)).attempts =
      mainAttempts device store₁ items := by
    by_cases hfo : fo.IsEmpty
    · have hF2 : staleTopics device store₁ items = [] := by
        unfold staleTopics
        rw [List.filter_eq_nil_iff]
        intro tp htp
        rcases mem_containerTopics.mp htp with ⟨e, he, rfl, hkind⟩
        rw [hstore₁eq] at he
        have hein := List.mem_of_mem_filter he
        have hnstale : (!(stales.contains e.topic)) = true := by
          have := List.of_mem_filter he
          simpa using this
        rcases containerTopics_after_insertAll device store items e hein hkind
          with hc | hc
        · by_cases hit : e.topic ∈ itemTopics device items
          · simp [hit]
          · exfalso
            have hmem : e.topic ∈ stales := by
              rw [hstaleA hfo]
              refine List.mem_filter.mpr ⟨hc, ?_⟩
              simpa using hit
            simp [hmem] at hnstale
        · simp [hc]
      have hsnd2 : (registrationPass device items (containerTopics store₁)).2 =
          staleTopics device store₁ items := by
        rw [regPass_snd]
        rfl
      simp [doUpdate, hfo, hsnd2, hF2, staleLoop]
    · simp [doUpdate, hfo]
  refine ⟨?_, ?_, ?_⟩
  · intro m hm n ty hpl
    rw [hatt2, hmain2, List.mem_append] at hm
    rcases hm with hm | hm
    · rcases List.mem_map.mp hm with ⟨it, _, rfl⟩
      simp [healthMsg] at hpl
    · rcases List.mem_map.mp hm with ⟨it, _, rfl⟩
      simp [twinMsg] at hpl
  · rw [hatt2, storeAfter_true, hmain2, List.foldl_append]
    rw [foldl_handle_no_route device _ _ hh2, foldl_handle_no_route device _ _ ht2]
  · intro it hit
    rw [hatt2, hmain2]
    exact ⟨List.mem_append_left _ (List.mem_map_of_mem _ hit),
      List.mem_append_right _ (List.mem_map_of_mem _ hit)⟩

/-- C3 witness: the idempotence theorem evaluated on a store holding a
stale container and a still-observed container, scanned twice. -/
theorem C3_idempotence_witness :
    (∀ m ∈ (doUpdate devMain ("c8y1") store1Fix itemsFix {} (fun _ => true)).attempts,
        ∀ n ty, ¬ m.payload = Payload.reg n ty) ∧
    storeAfter devMain store1Fix (fun _ => true)
        (doUpdate devMain ("c8y1") store1Fix itemsFix {} (fun _ => true)).attempts =
      store1Fix ∧
    (∀ it ∈ itemsFix,
        healthMsg (devMain.Service it.Name) it ∈
          (doUpdate devMain ("c8y1") store1Fix itemsFix {} (fun _ => true)).attempts ∧
        twinMsg (devMain.Service it.Name) it ∈
          (doUpdate devMain ("c8y1") store1Fix itemsFix {} (fun _ => true)).attempts) :=
  C3_idempotence devMain ("c8y1") storeFix itemsFix {} store1Fix
    (by decide) (by decide) (by decide) (by decide) rfl

end ContainerMonitor
